import Mathlib

/-!
Verification of the tool-dispatch and result-shaping layer of the
airtable-mcp-server repository.  The definitions below are a shallow
embedding of the canonical dispatcher (the multi-base, capped search
variant of AirtableMCPServer.handleCallTool) and of the service layer
(AirtableService.searchRecords / validateAndGetSearchFields).
Fallible operations are modelled with Except; the external Record
Store Client is a record of functions supplied as a parameter.
-/

set_option maxHeartbeats 1000000

namespace AirtableMcp

/-- JSON-like dynamic values: the untyped field values that Airtable
records carry after JSON decoding (model of the JS values the server
manipulates).  JS numbers are modelled as integers; no claim depends
on float formatting. -/
inductive Value where
  | vNull : Value
  | vBool : Bool → Value
  | vNum : Int → Value
  | vStr : String → Value
  | vArr : List Value → Value
  | vObj : List (String × Value) → Value
deriving Repr

/-- Escape a double quote or backslash by prefixing it with a backslash
(model of the regex replace /["\\]/g with a backslash prefix, and of the
string escaping JSON.stringify performs; control-character escapes are
not modelled, no claim depends on them). -/
def escapeChars (s : String) : String :=
  String.mk (s.data.flatMap (fun c => if c = '"' ∨ c = '\\' then ['\\', c] else [c]))

/-- Wrap a string in double quotes, escaping quotes and backslashes. -/
def jsonQuote (s : String) : String :=
  "\"" ++ escapeChars s ++ "\""

mutual

/-- Model of JSON.stringify on a Value.  Object and array element order
follows the list order (JS insertion order). -/
def jsonStr : Value → String
  | .vNull => "null"
  | .vBool b => if b then "true" else "false"
  | .vNum n => toString n
  | .vStr s => jsonQuote s
  | .vArr xs => "[" ++ jsonArr xs ++ "]"
  | .vObj kvs => "\x7b" ++ jsonObj kvs ++ "\x7d"

/-- Comma-separated JSON serialization of array elements. -/
def jsonArr : List Value → String
  | [] => ""
  | [v] => jsonStr v
  | v :: w :: rest => jsonStr v ++ "," ++ jsonArr (w :: rest)

/-- Comma-separated JSON serialization of object entries. -/
def jsonObj : List (String × Value) → String
  | [] => ""
  | [(k, v)] => jsonQuote k ++ ":" ++ jsonStr v
  | (k, v) :: kv :: rest => jsonQuote k ++ ":" ++ jsonStr v ++ "," ++ jsonObj (kv :: rest)

end

mutual

/-- Model of the local stringify helper in the search branch of
handleCallTool: null/absent gives the empty string, scalars their
literal form, arrays stringify elementwise dropping empties and join
with a comma-space, and objects fall back to JSON serialization
(JSON.stringify cannot fail on these finite values, so the catch
branch returning the empty string is unreachable in the model). -/
def jsStringify : Value → String
  | .vNull => ""
  | .vBool b => if b then "true" else "false"
  | .vNum n => toString n
  | .vStr s => s
  | .vArr xs => String.intercalate ", " ((jsStringifyList xs).filter (fun s => s != ""))
  | .vObj kvs => jsonStr (.vObj kvs)

/-- Elementwise stringification of a list of values. -/
def jsStringifyList : List Value → List String
  | [] => []
  | v :: rest => jsStringify v :: jsStringifyList rest

end

mutual

/-- Model of the JS String() conversion used for the fetch title:
null gives "null", scalars their literal form, arrays join their
elements with commas (null elements becoming empty), plain objects
give "[object Object]". -/
def jsString : Value → String
  | .vNull => "null"
  | .vBool b => if b then "true" else "false"
  | .vNum n => toString n
  | .vStr s => s
  | .vArr xs => jsStringJoin xs
  | .vObj _ => "[object Object]"

/-- Array.prototype.toString: elements joined with commas. -/
def jsStringJoin : List Value → String
  | [] => ""
  | [v] => jsStringElem v
  | v :: w :: rest => jsStringElem v ++ "," ++ jsStringJoin (w :: rest)

/-- An array element in a join: null renders as the empty string. -/
def jsStringElem : Value → String
  | .vNull => ""
  | .vBool b => if b then "true" else "false"
  | .vNum n => toString n
  | .vStr s => s
  | .vArr xs => jsStringJoin xs
  | .vObj _ => "[object Object]"

end

/-- JS truthiness of a dynamic value. -/
def Value.truthy : Value → Bool
  | .vNull => false
  | .vBool b => b
  | .vNum n => n != 0
  | .vStr s => s != ""
  | .vArr _ => true
  | .vObj _ => true

/-- Stringify an optional field value; an absent field (undefined in
JS) stringifies to the empty string, like null. -/
def stringifyOpt : Option Value → String
  | none => ""
  | some v => jsStringify v

/-- Field metadata as delivered by the base schema endpoint. -/
structure FieldDef where
  id : String
  name : String
  type : String
deriving Repr, DecidableEq

/-- Table metadata: identifier, name, primary field id and fields
(views are not consulted by any code a claim touches). -/
structure TableDef where
  id : String
  name : String
  primaryFieldId : String
  fields : List FieldDef
deriving Repr, DecidableEq

/-- Base schema: the table list returned by getBaseSchema. -/
structure BaseSchema where
  tables : List TableDef
deriving Repr, DecidableEq

/-- Base metadata as returned by listBases. -/
structure BaseInfo where
  id : String
  name : String
deriving Repr, DecidableEq

/-- An Airtable record: identifier plus a field-name-to-value map,
modelled as an association list in JS insertion order. -/
structure AirRecord where
  id : String
  fields : List (String × Value)
deriving Repr

/-- The Record Store Client, as the dispatcher sees it: the four
operations the search and fetch tools await on the injected
airtableService.  Each is fallible (a rejected promise is an error). -/
structure AirtableService where
  listBases : Except String (List BaseInfo)
  getBaseSchema : String → Except String BaseSchema
  searchRecords : String → String → String → Nat → Except String (List AirRecord)
  getRecord : String → String → String → Except String AirRecord

/-- Search configuration read from the environment: the optional base
allow-list MCP_SEARCH_BASE_IDS, the total cap MCP_SEARCH_MAX_TOTAL
(default 100) and the per-table limit MCP_SEARCH_PER_TABLE_LIMIT
(default 10). -/
structure SearchConfig where
  allowBaseIds : List String
  maxTotal : Nat
  perTableLimit : Nat
deriving Repr, DecidableEq

/-- The fixed list of commonly-meaningful field names the snippet
builder prioritizes after the table's primary field. -/
def fixedPriorityNames : List String :=
  ["Project Name", "Project Complete Address", "Project Additional Notes",
   "Company Name", "Property Name", "Client", "Client Name", "Owner", "Status"]

/-- The prioritized name list: the primary field name first, then the
fixed names; the filter models the JS filter(Boolean), which drops an
undefined primary name and an empty-string name. -/
def prioritizedFieldNames (primaryFieldName : Option String) : List String :=
  (primaryFieldName.toList ++ fixedPriorityNames).filter (fun s => s != "")

/-- First selection loop of the snippet builder: walk the prioritized
names, adding every name that is not yet seen and is present on the
record (value not undefined).  Returns the seen set and the ordered
selection; note this loop has no cap. -/
def addPrioritized (rfields : List (String × Value)) :
    List String → List String → List String → List String × List String
  | [], seen, ordered => (seen, ordered)
  | n :: rest, seen, ordered =>
    if !seen.contains n && (rfields.lookup n).isSome then
      addPrioritized rfields rest (seen ++ [n]) (ordered ++ [n])
    else
      addPrioritized rfields rest seen ordered

/-- Second selection loop: walk the record's entries, skipping seen
names, adding names whose value stringifies non-empty, and breaking
as soon as the ordered selection has reached 8 names (the break is
checked after a possible add, so it fires even when nothing was
added). -/
def fillFields : List (String × Value) → List String → List String → List String
  | [], _, ordered => ordered
  | (n, v) :: rest, seen, ordered =>
    if seen.contains n then
      fillFields rest seen ordered
    else if jsStringify v != "" then
      if (ordered ++ [n]).length ≥ 8 then ordered ++ [n]
      else fillFields rest (seen ++ [n]) (ordered ++ [n])
    else
      if ordered.length ≥ 8 then ordered
      else fillFields rest seen ordered

/-- The ordered field names selected for a record's snippet: the
prioritized pass seeds the seen set and the ordered list, then the
fill pass completes them. -/
def orderedFieldNames (primaryFieldName : Option String)
    (rfields : List (String × Value)) : List String :=
  fillFields rfields
    (addPrioritized rfields (prioritizedFieldNames primaryFieldName) [] []).1
    (addPrioritized rfields (prioritizedFieldNames primaryFieldName) [] []).2

/-- First n characters of a string (model of slice(0, n)). -/
def takeChars (n : Nat) (s : String) : String :=
  String.mk (s.data.take n)

/-- The joined "fieldName: value" pairs of the selected fields. -/
def snippetJoined (primaryFieldName : Option String)
    (rfields : List (String × Value)) : String :=
  String.intercalate " | "
    ((orderedFieldNames primaryFieldName rfields).map
      (fun n => n ++ ": " ++ stringifyOpt (rfields.lookup n)))

/-- The display snippet: the joined pairs, falling back to a raw JSON
dump of the record's fields when the join is empty (the JS
or-operator on strings), truncated to 400 characters. -/
def buildSnippet (primaryFieldName : Option String)
    (rfields : List (String × Value)) : String :=
  takeChars 400
    (if snippetJoined primaryFieldName rfields = ""
     then jsonStr (.vObj rfields)
     else snippetJoined primaryFieldName rfields)

/-- Name of the table's primary field, when it resolves. -/
def primaryNameOf (t : TableDef) : Option String :=
  (t.fields.find? (fun f => f.id == t.primaryFieldId)).map (fun f => f.name)

/-- The title suffix value: the stringified primary field value when a
primary field name is known and truthy as a string. -/
def primaryValueOf (pf : Option String) (rfields : List (String × Value)) : String :=
  match pf with
  | none => ""
  | some n => if n = "" then "" else stringifyOpt (rfields.lookup n)

/-- One item of the search tool's result list. -/
structure SearchResultItem where
  id : String
  title : String
  text : String
  url : String
deriving Repr, DecidableEq

/-- Shape one record of one table into a search result item, exactly
as the record loop of the search branch does. -/
def recordToItem (base : BaseInfo) (table : TableDef) (r : AirRecord) : SearchResultItem :=
  let pf := primaryNameOf table
  let snippet := buildSnippet pf r.fields
  let primaryValue := primaryValueOf pf r.fields
  let titleSuffix := if primaryValue = "" then r.id else primaryValue
  { id := base.id ++ ":" ++ table.id ++ ":" ++ r.id
    title := base.name ++ " – " ++ table.name ++ " – " ++ titleSuffix
    text := snippet
    url := "https://airtable.com/" ++ base.id ++ "/" ++ table.id ++ "/" ++ r.id }

/-- One backend search invocation, recorded for auditing which tables
were asked, with which limit, and how many results had been gathered
when the query was issued. -/
structure SearchQuery where
  baseId : String
  tableId : String
  limit : Nat
  countBefore : Nat
deriving Repr, DecidableEq

/-- Record loop of the search branch: push items while the running
total is below the configured maximum, then stop. -/
def addRecords (base : BaseInfo) (table : TableDef) (maxTotal : Nat) :
    List AirRecord → List SearchResultItem → List SearchResultItem
  | [], acc => acc
  | r :: rest, acc =>
    if acc.length ≥ maxTotal then acc
    else addRecords base table maxTotal rest (acc ++ [recordToItem base table r])

/-- Table loop of the search branch: break when the cap is reached;
otherwise query the backend with the per-table limit, swallowing a
failed table search (its catch block ignores the error), and fold the
returned records into the accumulator. -/
def searchTables (svc : AirtableService) (cfg : SearchConfig) (q : String)
    (base : BaseInfo) :
    List TableDef → List SearchResultItem → List SearchQuery →
    List SearchResultItem × List SearchQuery
  | [], acc, trace => (acc, trace)
  | t :: rest, acc, trace =>
    if acc.length ≥ cfg.maxTotal then (acc, trace)
    else
      match svc.searchRecords base.id t.id q cfg.perTableLimit with
      | .error _ =>
        searchTables svc cfg q base rest acc
          (trace ++ [⟨base.id, t.id, cfg.perTableLimit, acc.length⟩])
      | .ok records =>
        searchTables svc cfg q base rest (addRecords base t cfg.maxTotal records acc)
          (trace ++ [⟨base.id, t.id, cfg.perTableLimit, acc.length⟩])

/-- Base loop of the search branch: skip bases excluded by a non-empty
allow-list, fetch the base schema (a failure here is not caught
locally and aborts the whole search), run the table loop, and break
once the cap is reached. -/
def searchBases (svc : AirtableService) (cfg : SearchConfig) (q : String) :
    List BaseInfo → List SearchResultItem → List SearchQuery →
    Except String (List SearchResultItem × List SearchQuery)
  | [], acc, trace => .ok (acc, trace)
  | b :: rest, acc, trace =>
    if cfg.allowBaseIds ≠ [] ∧ cfg.allowBaseIds.contains b.id = false then
      searchBases svc cfg q rest acc trace
    else
      match svc.getBaseSchema b.id with
      | .error e => .error e
      | .ok schema =>
        if (searchTables svc cfg q b schema.tables acc trace).1.length ≥ cfg.maxTotal then
          .ok (searchTables svc cfg q b schema.tables acc trace)
        else
          searchBases svc cfg q rest
            (searchTables svc cfg q b schema.tables acc trace).1
            (searchTables svc cfg q b schema.tables acc trace).2

/-- The whole search tool body: list bases, short-circuit on an empty
base list, then run the base loop with empty accumulators.  The second
component records the backend search queries issued. -/
def handleSearch (svc : AirtableService) (cfg : SearchConfig) (q : String) :
    Except String (List SearchResultItem × List SearchQuery) :=
  match svc.listBases with
  | .error e => .error e
  | .ok bases =>
    if bases.isEmpty then .ok ([], [])
    else searchBases svc cfg q bases [] []

/-- Split a character list at every occurrence of the separator
(model of the JS String.prototype.split with a one-character
separator; splitting the empty string yields one empty part). -/
def splitCh (sep : Char) : List Char → List (List Char)
  | [] => [[]]
  | c :: cs =>
    if c = sep then [] :: splitCh sep cs
    else
      match splitCh sep cs with
      | [] => [[c]]
      | p :: ps => (c :: p) :: ps

/-- JS split of a string at a one-character separator. -/
def jsSplit (sep : Char) (s : String) : List String :=
  (splitCh sep s.data).map String.mk

/-- A call made against the Record Store Client by the fetch tool. -/
inductive StoreCall where
  | getRecordCall : String → String → String → StoreCall
  | getSchemaCall : String → StoreCall
deriving Repr, DecidableEq

/-- The payload of a successful fetch, kept structured so that the
metadata is directly inspectable. -/
structure FetchPayload where
  id : String
  title : String
  text : String
  url : String
  metaBaseId : String
  metaTableId : String
deriving Repr, DecidableEq

/-- Outcome of the fetch tool body: a malformed composite id (not
exactly three colon-separated parts), a successful payload, or a
propagated backend error. -/
inductive FetchOutcome where
  | invalidFormat : FetchOutcome
  | ok : FetchPayload → FetchOutcome
  | err : String → FetchOutcome
deriving Repr

/-- The fetch title: the primary field's value via String() when the
primary field name resolves and the value is truthy, otherwise the
table name (or the table id when the table is unknown) followed by
the record id. -/
def fetchTitle (tableOpt : Option TableDef) (tableId : String) (record : AirRecord) : String :=
  let pf := tableOpt.bind primaryNameOf
  let fallback := (match tableOpt with | some t => t.name | none => tableId) ++ " " ++ record.id
  match pf with
  | some n =>
    if n = "" then fallback
    else
      match record.fields.lookup n with
      | some v => if v.truthy then jsString v else fallback
      | none => fallback
  | none => fallback

/-- The fetch tool body: split the id on colons; with anything other
than exactly three parts, answer the invalid-format envelope without
touching the store; otherwise issue the record and schema lookups
(both are started by the Promise.all, so both appear in the call
trace) and shape the payload.  The payload id is the record id
returned by the store, not the composite id. -/
def fetchTool (svc : AirtableService) (idArg : String) : FetchOutcome × List StoreCall :=
  match jsSplit ':' idArg with
  | [baseId, tableId, recordId] =>
    match svc.getRecord baseId tableId recordId with
    | .error e =>
      (.err e, [StoreCall.getRecordCall baseId tableId recordId,
                StoreCall.getSchemaCall baseId])
    | .ok record =>
      match svc.getBaseSchema baseId with
      | .error e =>
        (.err e, [StoreCall.getRecordCall baseId tableId recordId,
                  StoreCall.getSchemaCall baseId])
      | .ok schema =>
        (.ok {
          id := record.id
          title := fetchTitle (schema.tables.find? (fun t => t.id == tableId)) tableId record
          text := jsonStr (.vObj record.fields)
          url := "https://airtable.com/" ++ baseId ++ "/" ++ tableId ++ "/" ++ record.id
          metaBaseId := baseId
          metaTableId := tableId },
         [StoreCall.getRecordCall baseId tableId recordId,
          StoreCall.getSchemaCall baseId])
  | _ => (.invalidFormat, [])

/-- One item of a tool-call envelope's content array. -/
structure ContentItem where
  type : String
  text : String
deriving Repr, DecidableEq

/-- The uniform envelope every tool call returns. -/
structure CallToolResult where
  content : List ContentItem
  isError : Bool
deriving Repr, DecidableEq

/-- The formatToolResponse helper: JSON-serialize the data into a
single text content item. -/
def formatToolResponse (data : Value) (isError : Bool) : CallToolResult :=
  { content := [{ type := "text", text := jsonStr data }], isError := isError }

/-- JSON shape of one search result item. -/
def itemToValue (i : SearchResultItem) : Value :=
  .vObj [("id", .vStr i.id), ("title", .vStr i.title),
         ("text", .vStr i.text), ("url", .vStr i.url)]

/-- JSON shape of the search tool's result list. -/
def resultsToValue (items : List SearchResultItem) : Value :=
  .vArr (items.map itemToValue)

/-- JSON shape of the fetch tool's payload, with the metadata object
carrying the base and table ids parsed from the composite id. -/
def payloadToValue (p : FetchPayload) : Value :=
  .vObj [("id", .vStr p.id), ("title", .vStr p.title), ("text", .vStr p.text),
         ("url", .vStr p.url),
         ("metadata", .vObj [("baseId", .vStr p.metaBaseId),
                             ("tableId", .vStr p.metaTableId)])]

/-- Model of the zod parse of a required string argument: a missing
key, a non-string value or a non-object argument throws (the exact
zod message text is abstracted; no claim depends on it). -/
def parseStringArg (args : Value) (key : String) : Except String String :=
  match args with
  | .vObj kvs =>
    match kvs.lookup key with
    | some (.vStr s) => .ok s
    | some _ => .error ("Invalid arguments: expected a string for " ++ key)
    | none => .error ("Invalid arguments: missing required " ++ key)
  | _ => .error "Invalid arguments: expected an object"

/-- The invalid-id message of the fetch branch. -/
def invalidIdMessage : String := "Invalid id format. Expected baseId:tableId:recordId"

/-- The body of the try block of handleCallTool: route by tool name
and produce the data and isError flag passed to formatToolResponse,
or an error for anything thrown (argument validation failure, a
propagated backend failure, or an unknown tool name). -/
def callToolExcept (svc : AirtableService) (cfg : SearchConfig)
    (name : String) (args : Value) : Except String (Value × Bool) :=
  if name = "search" then
    match parseStringArg args "query" with
    | .error e => .error e
    | .ok q =>
      match handleSearch svc cfg q with
      | .error e => .error e
      | .ok rt => .ok (resultsToValue rt.1, false)
  else if name = "fetch" then
    match parseStringArg args "id" with
    | .error e => .error e
    | .ok idArg =>
      match (fetchTool svc idArg).1 with
      | .invalidFormat => .ok (.vStr invalidIdMessage, true)
      | .ok p => .ok (payloadToValue p, false)
      | .err e => .error e
  else
    .error ("Unknown tool: " ++ name)

/-- The tool dispatcher: the catch block converts anything thrown
into an isError envelope carrying the exception's message. -/
def handleCallTool (svc : AirtableService) (cfg : SearchConfig)
    (name : String) (args : Value) : CallToolResult :=
  match callToolExcept svc cfg name args with
  | .ok de => formatToolResponse de.1 de.2
  | .error e => formatToolResponse (.vStr ("Error in tool " ++ name ++ ": " ++ e)) true

/-- A call made against the Airtable HTTP API by the service layer. -/
inductive ApiCall where
  | schemaCall : String → ApiCall
  | listCall : String → String → String → Option Nat → ApiCall
deriving Repr, DecidableEq

/-- The HTTP API as the service layer sees it: the schema endpoint
and the paginated record-listing endpoint (already folded over
pagination), the latter taking the maxRecords option, the generated
filter formula and the optional view. -/
structure ApiBackend where
  baseSchemas : String → Except String BaseSchema
  listRecordsApi : String → String → Option Nat → String → Option String →
    Except String (List AirRecord)

/-- The fixed enumeration of text-like field types eligible for the
generated search formula. -/
def searchableFieldTypes : List String :=
  ["singleLineText", "multilineText", "richText", "email", "url",
   "phoneNumber", "lookup", "rollup"]

/-- Names of a table's text-like fields, in schema order. -/
def searchableNames (table : TableDef) : List String :=
  (table.fields.filter (fun f => searchableFieldTypes.contains f.type)).map (fun f => f.name)

/-- Model of AirtableService.validateAndGetSearchFields: fetch the
base schema, resolve the table, collect the text-like field names,
fail when there are none, and when fields were explicitly requested
fail unless every one of them is a text-like field of the table. -/
def validateAndGetSearchFields (api : ApiBackend) (baseId tableId : String)
    (requestedFieldIds : Option (List String)) : Except String (List String) :=
  match api.baseSchemas baseId with
  | .error e => .error e
  | .ok schema =>
    match schema.tables.find? (fun t => t.id == tableId) with
    | none => .error ("Table " ++ tableId ++ " not found in base " ++ baseId)
    | some table =>
      let searchable := searchableNames table
      if searchable.isEmpty then .error "No text fields available to search"
      else
        match requestedFieldIds with
        | some req =>
          if req.length > 0 then
            let invalid := req.filter (fun n => !searchable.contains n)
            if invalid.isEmpty then .ok req
            else .error ("Invalid fields requested: " ++ String.intercalate ", " invalid)
          else .ok searchable
        | none => .ok searchable

/-- One FIND clause of the generated formula, coercing the field to a
string by prepending the empty string. -/
def fieldClause (escapedTerm fieldName : String) : String :=
  "FIND(\"" ++ escapedTerm ++ "\", \"\" & \x7b" ++ fieldName ++ "\x7d)"

/-- The generated filterByFormula: an OR over one FIND clause per
searchable field, with the term escaped against formula injection. -/
def buildFilterFormula (term : String) (fields : List String) : String :=
  "OR(" ++ String.intercalate "," (fields.map (fieldClause (escapeChars term))) ++ ")"

/-- Model of AirtableService.searchRecords: validate the fields (the
validation fetches the base schema from the backend, so that HTTP
call is in the trace either way), then — only when validation
succeeded — call the record-listing endpoint with the generated
formula. -/
def serviceSearchRecords (api : ApiBackend) (baseId tableId searchTerm : String)
    (fieldIds : Option (List String)) (maxRecords : Option Nat) (view : Option String) :
    Except String (List AirRecord) × List ApiCall :=
  match validateAndGetSearchFields api baseId tableId fieldIds with
  | .error e => (.error e, [ApiCall.schemaCall baseId])
  | .ok searchFields =>
    let formula := buildFilterFormula searchTerm searchFields
    (api.listRecordsApi baseId tableId maxRecords formula view,
     [ApiCall.schemaCall baseId, ApiCall.listCall baseId tableId formula maxRecords])

/-! Concrete fixtures used by witness and counterexample theorems. -/

/-- A one-field table fixture. -/
def tabW : TableDef := ⟨"T1", "Tab", "f1", [⟨"f1", "Name", "singleLineText"⟩]⟩

/-- A one-field record fixture. -/
def recW : AirRecord := ⟨"r1", [("Name", .vStr "Bob")]⟩

/-- A service fixture with one base, one table and one record. -/
def svcW : AirtableService :=
  { listBases := .ok [⟨"B1", "Base"⟩]
    getBaseSchema := fun _ => .ok ⟨[tabW]⟩
    searchRecords := fun _ _ _ _ => .ok [recW]
    getRecord := fun _ _ _ => .ok recW }

/-- The default search configuration: no allow-list, cap 100, per
table 10. -/
def cfgW : SearchConfig := ⟨[], 100, 10⟩

/-- The search result item svcW produces for recW. -/
def itemW : SearchResultItem :=
  ⟨"B1:T1:r1", "Base – Tab – Bob", "Name: Bob", "https://airtable.com/B1/T1/r1"⟩

/-- The single backend query svcW's search issues. -/
def queryW : SearchQuery := ⟨"B1", "T1", 10, 0⟩

/-- Record fixtures for the partial-failure scenario. -/
def recC4a : AirRecord := ⟨"ra", [("Name", .vStr "A")]⟩

/-- Second record fixture for the partial-failure scenario. -/
def recC4b : AirRecord := ⟨"rb", [("Name", .vStr "B")]⟩

/-- Table T1 of the partial-failure scenario (its search throws). -/
def tabC4T1 : TableDef := ⟨"T1", "TabOne", "f1", [⟨"f1", "Name", "singleLineText"⟩]⟩

/-- Table T2 of the partial-failure scenario (its search returns two
records). -/
def tabC4T2 : TableDef := ⟨"T2", "TabTwo", "f1", [⟨"f1", "Name", "singleLineText"⟩]⟩

/-- Backend search where table T1 of base B1 throws and table T2
returns two records. -/
def searchC4fail (b t : String) (_q : String) (_l : Nat) : Except String (List AirRecord) :=
  if b = "B1" ∧ t = "T1" then .error "table search failed"
  else if b = "B1" ∧ t = "T2" then .ok [recC4a, recC4b]
  else .ok []

/-- The same backend search with T1's failure replaced by an empty
result batch. -/
def searchC4empty (b t : String) (_q : String) (_l : Nat) : Except String (List AirRecord) :=
  if b = "B1" ∧ t = "T1" then .ok []
  else if b = "B1" ∧ t = "T2" then .ok [recC4a, recC4b]
  else .ok []

/-- Service whose table T1 search throws. -/
def svcC4a : AirtableService :=
  { listBases := .ok [⟨"B1", "BaseOne"⟩]
    getBaseSchema := fun _ => .ok ⟨[tabC4T1, tabC4T2]⟩
    searchRecords := searchC4fail
    getRecord := fun _ _ _ => .error "no record" }

/-- The same service with the throwing table returning no records. -/
def svcC4b : AirtableService := { svcC4a with searchRecords := searchC4empty }

/-- First base of the schema-failure scenario (healthy). -/
def baseC9a : BaseInfo := ⟨"B1", "BaseOne"⟩

/-- Second base of the schema-failure scenario (its schema fetch
throws). -/
def baseC9b : BaseInfo := ⟨"B2", "BaseTwo"⟩

/-- Service whose second base's schema fetch fails. -/
def svcC9 : AirtableService :=
  { listBases := .ok [baseC9a, baseC9b]
    getBaseSchema := fun bid =>
      if bid = "B2" then .error "schema fetch failed" else .ok ⟨[tabW]⟩
    searchRecords := fun _ _ _ _ => .ok [recW]
    getRecord := fun _ _ _ => .error "unused" }

/-- A record carrying every name of the fixed priority list. -/
def c5Fields : List (String × Value) :=
  [("Project Name", .vStr "x"), ("Project Complete Address", .vStr "x"),
   ("Project Additional Notes", .vStr "x"), ("Company Name", .vStr "x"),
   ("Property Name", .vStr "x"), ("Client", .vStr "x"), ("Client Name", .vStr "x"),
   ("Owner", .vStr "x"), ("Status", .vStr "x")]

/-- A table with one text-like field and one numeric field. -/
def tabC7 : TableDef :=
  ⟨"t1", "T", "f1", [⟨"f1", "Name", "singleLineText"⟩, ⟨"f2", "Amount", "number"⟩]⟩

/-- An API backend serving tabC7's schema. -/
def apiC7 : ApiBackend :=
  { baseSchemas := fun _ => .ok ⟨[tabC7]⟩
    listRecordsApi := fun _ _ _ _ _ => .ok [] }

/-! Helper lemmas. -/

theorem string_data_append (a b : String) : (a ++ b).data = a.data ++ b.data := by
  rcases a with ⟨la⟩
  rcases b with ⟨lb⟩
  rfl

theorem string_mk_data (s : String) : String.mk s.data = s := by
  rcases s with ⟨l⟩
  rfl

theorem splitCh_no_sep (sep : Char) (xs : List Char) (h : sep ∉ xs) :
    splitCh sep xs = [xs] := by
  induction xs with
  | nil => rfl
  | cons c cs ih =>
    simp only [List.mem_cons, not_or] at h
    obtain ⟨h1, h2⟩ := h
    simp only [splitCh]
    rw [if_neg (fun hc => h1 hc.symm), ih h2]

theorem splitCh_append (sep : Char) (xs rest : List Char) (h : sep ∉ xs) :
    splitCh sep (xs ++ sep :: rest) = xs :: splitCh sep rest := by
  induction xs with
  | nil => simp [splitCh]
  | cons c cs ih =>
    simp only [List.mem_cons, not_or] at h
    obtain ⟨h1, h2⟩ := h
    simp only [List.cons_append, splitCh]
    rw [if_neg (fun hc => h1 hc.symm), List.append_eq, ih h2]

theorem jsSplit_composite (b t r : String)
    (hb : ':' ∉ b.data) (ht : ':' ∉ t.data) (hr : ':' ∉ r.data) :
    jsSplit ':' (b ++ ":" ++ t ++ ":" ++ r) = [b, t, r] := by
  have hc : (":" : String).data = [':'] := rfl
  have hdata : (b ++ ":" ++ t ++ ":" ++ r).data
      = b.data ++ ':' :: (t.data ++ ':' :: r.data) := by
    simp [string_data_append, hc]
  unfold jsSplit
  rw [hdata, splitCh_append _ _ _ hb, splitCh_append _ _ _ ht, splitCh_no_sep _ _ hr]
  simp [string_mk_data]

theorem jsSplit_no_sep (s : String) (h : ':' ∉ s.data) : jsSplit ':' s = [s] := by
  unfold jsSplit
  rw [splitCh_no_sep _ _ h]
  simp [string_mk_data]

/-! Claim theorems. -/

/-- C1: every tool dispatch — success or failure — returns the uniform
envelope produced by formatToolResponse (a single text content item whose
text is a JSON string), and anything thrown inside the try block is caught
and converted into an isError envelope carrying the exception's message;
handleCallTool is a total function, so no exception escapes to the
transport. -/
theorem callTool_uniform_envelope (svc : AirtableService) (cfg : SearchConfig)
    (toolName : String) (args : Value) :
    (∃ d : Value, handleCallTool svc cfg toolName args =
      formatToolResponse d (handleCallTool svc cfg toolName args).isError) ∧
    (∀ e, callToolExcept svc cfg toolName args = .error e →
      handleCallTool svc cfg toolName args =
        formatToolResponse (.vStr ("Error in tool " ++ toolName ++ ": " ++ e)) true) := by
  constructor
  · cases h : callToolExcept svc cfg toolName args with
    | ok de =>
      refine ⟨de.1, ?_⟩
      simp [handleCallTool, h, formatToolResponse]
    | error e =>
      refine ⟨.vStr ("Error in tool " ++ toolName ++ ": " ++ e), ?_⟩
      simp [handleCallTool, h, formatToolResponse]
  · intro e he
    simp [handleCallTool, he]

/-- Witness for C1 at a concrete input: the unknown tool name
delete_everything is caught and produces the error envelope whose message
names the offending tool. -/
theorem callTool_uniform_envelope_witness :
    callToolExcept svcW cfgW "delete_everything" .vNull =
      .error ("Unknown tool: " ++ "delete_everything") ∧
    handleCallTool svcW cfgW "delete_everything" .vNull =
      formatToolResponse
        (.vStr ("Error in tool " ++ "delete_everything" ++ ": " ++
          ("Unknown tool: " ++ "delete_everything"))) true :=
  ⟨rfl, (callTool_uniform_envelope svcW cfgW "delete_everything" .vNull).2
    ("Unknown tool: " ++ "delete_everything") rfl⟩

theorem fetchTool_not_three (svc : AirtableService) (idArg : String)
    (h : (jsSplit ':' idArg).length ≠ 3) :
    fetchTool svc idArg = (FetchOutcome.invalidFormat, []) := by
  unfold fetchTool
  rcases hp : jsSplit ':' idArg with _ | ⟨a, _ | ⟨b, _ | ⟨c, _ | ⟨d, rest⟩⟩⟩⟩
  · rfl
  · rfl
  · rfl
  · exact absurd (by rw [hp]; rfl) h
  · rfl

/-- C8: a fetch whose id does not split on the colon into exactly three
parts answers the invalid-id-format envelope with isError true, and the
Record Store Client is never invoked (the fetch call trace is empty). -/
theorem fetch_invalid_id_format (svc : AirtableService) (cfg : SearchConfig)
    (idArg : String) (h : (jsSplit ':' idArg).length ≠ 3) :
    fetchTool svc idArg = (FetchOutcome.invalidFormat, []) ∧
    handleCallTool svc cfg "fetch" (.vObj [("id", .vStr idArg)]) =
      formatToolResponse (.vStr invalidIdMessage) true := by
  have h1 := fetchTool_not_three svc idArg h
  refine ⟨h1, ?_⟩
  have h2 : (fetchTool svc idArg).1 = FetchOutcome.invalidFormat := by rw [h1]
  simp [handleCallTool, callToolExcept, parseStringArg, h2, formatToolResponse,
    List.lookup]

/-- Witness for C8 at the concrete id notthreeparts, which splits into a
single part. -/
theorem fetch_invalid_id_format_witness :
    (jsSplit ':' "notthreeparts").length ≠ 3 ∧
    (fetchTool svcW "notthreeparts" = (FetchOutcome.invalidFormat, []) ∧
      handleCallTool svcW cfgW "fetch" (.vObj [("id", .vStr "notthreeparts")]) =
        formatToolResponse (.vStr invalidIdMessage) true) :=
  ⟨by decide, fetch_invalid_id_format svcW cfgW "notthreeparts" (by decide)⟩

theorem addRecords_mem (base : BaseInfo) (table : TableDef) (m : Nat)
    (records : List AirRecord) (acc : List SearchResultItem) (item : SearchResultItem)
    (h : item ∈ addRecords base table m records acc) :
    item ∈ acc ∨ ∃ r, item = recordToItem base table r := by
  induction records generalizing acc with
  | nil => exact .inl h
  | cons r rest ih =>
    simp only [addRecords] at h
    split at h
    · exact .inl h
    · rcases ih _ h with h2 | h2
      · rcases List.mem_append.mp h2 with h3 | h3
        · exact .inl h3
        · exact .inr ⟨r, List.mem_singleton.mp h3⟩
      · exact .inr h2

theorem searchTables_mem (svc : AirtableService) (cfg : SearchConfig) (q : String)
    (base : BaseInfo) (tables : List TableDef) :
    ∀ (acc : List SearchResultItem) (trace : List SearchQuery) (item : SearchResultItem),
    item ∈ (searchTables svc cfg q base tables acc trace).1 →
    item ∈ acc ∨ ∃ tb r, item = recordToItem base tb r := by
  induction tables with
  | nil => intro acc trace item h; exact .inl h
  | cons t rest ih =>
    intro acc trace item h
    simp only [searchTables] at h
    split at h
    · exact .inl h
    · split at h
      · exact ih _ _ _ h
      · rcases ih _ _ _ h with h2 | h2
        · rcases addRecords_mem _ _ _ _ _ _ h2 with h3 | h3
          · exact .inl h3
          · obtain ⟨r, hr⟩ := h3
            exact .inr ⟨t, r, hr⟩
        · exact .inr h2

theorem searchBases_mem (svc : AirtableService) (cfg : SearchConfig) (q : String)
    (bases : List BaseInfo) :
    ∀ (acc : List SearchResultItem) (trace : List SearchQuery)
      (out : List SearchResultItem × List SearchQuery) (item : SearchResultItem),
    searchBases svc cfg q bases acc trace = .ok out →
    item ∈ out.1 → item ∈ acc ∨ ∃ base tb r, item = recordToItem base tb r := by
  induction bases with
  | nil =>
    intro acc trace out item h hm
    injection h with h
    rw [← h] at hm
    exact .inl hm
  | cons b rest ih =>
    intro acc trace out item h hm
    simp only [searchBases] at h
    split at h
    · exact ih _ _ _ _ h hm
    · split at h
      · exact absurd h (by simp)
      · split at h
        · injection h with h
          rw [← h] at hm
          rcases searchTables_mem svc cfg q b _ _ _ _ hm with h2 | h2
          · exact .inl h2
          · obtain ⟨tb, r, hr⟩ := h2
            exact .inr ⟨b, tb, r, hr⟩
        · rcases ih _ _ _ _ h hm with h2 | h2
          · rcases searchTables_mem svc cfg q b _ _ _ _ h2 with h3 | h3
            · exact .inl h3
            · obtain ⟨tb, r, hr⟩ := h3
              exact .inr ⟨b, tb, r, hr⟩
          · exact .inr h2

/-- C3: every item the search tool produces carries a composite id of the
form baseId:tableId:recordId; when the three components are non-empty and
colon-free, splitting the composite id on the colon yields exactly those
three non-empty parts; and feeding the composite id to the fetch tool (with
the backend lookups succeeding) yields a payload whose metadata baseId and
tableId equal the first two parts. -/
theorem search_id_roundtrip :
    (∀ (svc : AirtableService) (cfg : SearchConfig) (q : String)
       (out : List SearchResultItem × List SearchQuery) (item : SearchResultItem),
       handleSearch svc cfg q = .ok out → item ∈ out.1 →
       ∃ b t r, item.id = b ++ ":" ++ t ++ ":" ++ r) ∧
    (∀ b t r : String, b ≠ "" → t ≠ "" → r ≠ "" →
       ':' ∉ b.data → ':' ∉ t.data → ':' ∉ r.data →
       jsSplit ':' (b ++ ":" ++ t ++ ":" ++ r) = [b, t, r] ∧
       ∀ p ∈ jsSplit ':' (b ++ ":" ++ t ++ ":" ++ r), p ≠ "") ∧
    (∀ (svc : AirtableService) (b t r : String) (rec : AirRecord) (sch : BaseSchema),
       ':' ∉ b.data → ':' ∉ t.data → ':' ∉ r.data →
       svc.getRecord b t r = .ok rec → svc.getBaseSchema b = .ok sch →
       ∃ p, (fetchTool svc (b ++ ":" ++ t ++ ":" ++ r)).1 = .ok p ∧
         p.metaBaseId = b ∧ p.metaTableId = t) := by
  refine ⟨?_, ?_, ?_⟩
  · intro svc cfg q out item h hm
    unfold handleSearch at h
    split at h
    · exact absurd h (by simp)
    · split at h
      · injection h with h
        rw [← h] at hm
        exact absurd hm (by simp)
      · rcases searchBases_mem svc cfg q _ _ _ _ _ h hm with h2 | h2
        · exact absurd h2 (by simp)
        · obtain ⟨base, tb, r, hr⟩ := h2
          exact ⟨base.id, tb.id, r.id, by rw [hr]; rfl⟩
  · intro b t r hb ht hr hcb hct hcr
    have hs := jsSplit_composite b t r hcb hct hcr
    refine ⟨hs, ?_⟩
    intro p hp
    rw [hs] at hp
    simp only [List.mem_cons, List.not_mem_nil, or_false] at hp
    rcases hp with rfl | rfl | rfl
    · exact hb
    · exact ht
    · exact hr
  · intro svc b t r rec sch hcb hct hcr hRec hSch
    have hs := jsSplit_composite b t r hcb hct hcr
    unfold fetchTool
    rw [hs]
    simp only [hRec, hSch]
    exact ⟨_, rfl, rfl, rfl⟩

/-- Witness for C3 at the concrete components B1, T1, r1 with svcW. -/
theorem search_id_roundtrip_witness :
    jsSplit ':' ("B1" ++ ":" ++ "T1" ++ ":" ++ "r1") = ["B1", "T1", "r1"] ∧
    (∃ p, (fetchTool svcW ("B1" ++ ":" ++ "T1" ++ ":" ++ "r1")).1 = .ok p ∧
      p.metaBaseId = "B1" ∧ p.metaTableId = "T1") :=
  ⟨(search_id_roundtrip.2.1 "B1" "T1" "r1" (by decide) (by decide) (by decide)
      (by decide) (by decide) (by decide)).1,
   search_id_roundtrip.2.2 svcW "B1" "T1" "r1" recW ⟨[tabW]⟩
      (by decide) (by decide) (by decide) rfl rfl⟩

/-- C10: a successful fetch with a well-formed composite id returns a
payload whose id field is the bare record id the store returned — not the
composite id — and therefore, when that record id contains no colon,
feeding the fetch output's id back into fetch fails the three-part format
check. -/
theorem fetch_returns_bare_record_id (svc : AirtableService)
    (idArg b t r : String) (rec : AirRecord) (sch : BaseSchema)
    (hSplit : jsSplit ':' idArg = [b, t, r])
    (hRec : svc.getRecord b t r = .ok rec)
    (hSch : svc.getBaseSchema b = .ok sch) :
    (∃ p, (fetchTool svc idArg).1 = .ok p ∧ p.id = rec.id) ∧
    (':' ∉ rec.id.data → ∀ svc2 : AirtableService,
      (fetchTool svc2 rec.id).1 = FetchOutcome.invalidFormat) := by
  constructor
  · unfold fetchTool
    rw [hSplit]
    simp only [hRec, hSch]
    exact ⟨_, rfl, rfl⟩
  · intro hnc svc2
    unfold fetchTool
    rw [jsSplit_no_sep _ hnc]

/-- Witness for C10 at the composite id B1:T1:r1 with svcW, whose stored
record id r1 is colon-free. -/
theorem fetch_returns_bare_record_id_witness :
    (∃ p, (fetchTool svcW "B1:T1:r1").1 = .ok p ∧ p.id = recW.id) ∧
    (fetchTool svcW recW.id).1 = FetchOutcome.invalidFormat :=
  ⟨(fetch_returns_bare_record_id svcW "B1:T1:r1" "B1" "T1" "r1" recW ⟨[tabW]⟩
      (by decide) rfl rfl).1,
   (fetch_returns_bare_record_id svcW "B1:T1:r1" "B1" "T1" "r1" recW ⟨[tabW]⟩
      (by decide) rfl rfl).2 (by decide) svcW⟩

theorem addRecords_length_le (base : BaseInfo) (table : TableDef) (m : Nat)
    (records : List AirRecord) (acc : List SearchResultItem) (h : acc.length ≤ m) :
    (addRecords base table m records acc).length ≤ m := by
  induction records generalizing acc with
  | nil => exact h
  | cons r rest ih =>
    simp only [addRecords]
    split
    · exact h
    · next hge =>
      refine ih _ ?_
      simp only [List.length_append, List.length_singleton]
      omega

theorem searchTables_inv (svc : AirtableService) (cfg : SearchConfig) (q : String)
    (base : BaseInfo) (tables : List TableDef) :
    ∀ (acc : List SearchResultItem) (trace : List SearchQuery),
    acc.length ≤ cfg.maxTotal →
    (∀ qr ∈ trace, qr.limit = cfg.perTableLimit ∧ qr.countBefore < cfg.maxTotal) →
    (searchTables svc cfg q base tables acc trace).1.length ≤ cfg.maxTotal ∧
    ∀ qr ∈ (searchTables svc cfg q base tables acc trace).2,
      qr.limit = cfg.perTableLimit ∧ qr.countBefore < cfg.maxTotal := by
  induction tables with
  | nil => intro acc trace hacc htr; exact ⟨hacc, htr⟩
  | cons t rest ih =>
    intro acc trace hacc htr
    simp only [searchTables]
    split
    · exact ⟨hacc, htr⟩
    · next hge =>
      have hlt : acc.length < cfg.maxTotal := by omega
      have htr2 : ∀ qr ∈ trace ++ [(⟨base.id, t.id, cfg.perTableLimit, acc.length⟩ : SearchQuery)],
          qr.limit = cfg.perTableLimit ∧ qr.countBefore < cfg.maxTotal := by
        intro qr hqr
        rcases List.mem_append.mp hqr with h1 | h1
        · exact htr qr h1
        · rw [List.mem_singleton.mp h1]
          exact ⟨rfl, hlt⟩
      split
      · exact ih acc _ hacc htr2
      · exact ih _ _ (addRecords_length_le base t cfg.maxTotal _ acc hacc) htr2

theorem searchBases_inv (svc : AirtableService) (cfg : SearchConfig) (q : String)
    (bases : List BaseInfo) :
    ∀ (acc : List SearchResultItem) (trace : List SearchQuery),
    acc.length ≤ cfg.maxTotal →
    (∀ qr ∈ trace, qr.limit = cfg.perTableLimit ∧ qr.countBefore < cfg.maxTotal) →
    ∀ out, searchBases svc cfg q bases acc trace = .ok out →
    out.1.length ≤ cfg.maxTotal ∧
    ∀ qr ∈ out.2, qr.limit = cfg.perTableLimit ∧ qr.countBefore < cfg.maxTotal := by
  induction bases with
  | nil =>
    intro acc trace hacc htr out h
    injection h with h
    rw [← h]
    exact ⟨hacc, htr⟩
  | cons b rest ih =>
    intro acc trace hacc htr out h
    simp only [searchBases] at h
    split at h
    · exact ih _ _ hacc htr out h
    · split at h
      · exact absurd h (by simp)
      · next schema heq =>
        have hst := searchTables_inv svc cfg q b schema.tables acc trace hacc htr
        split at h
        · injection h with h
          rw [← h]
          exact hst
        · exact ih _ _ hst.1 hst.2 out h

/-- C2: whenever the search tool completes, the number of returned items
never exceeds the configured maximum total, every backend table query is
issued with the configured per-table limit, and every query was issued
while the running total was still below the maximum — the enumeration
stops the moment the cap is reached. -/
theorem search_respects_caps (svc : AirtableService) (cfg : SearchConfig) (q : String)
    (out : List SearchResultItem × List SearchQuery)
    (h : handleSearch svc cfg q = .ok out) :
    out.1.length ≤ cfg.maxTotal ∧
    ∀ qr ∈ out.2, qr.limit = cfg.perTableLimit ∧ qr.countBefore < cfg.maxTotal := by
  unfold handleSearch at h
  split at h
  · exact absurd h (by simp)
  · split at h
    · injection h with h
      rw [← h]
      exact ⟨by simp, by simp⟩
    · exact searchBases_inv svc cfg q _ [] [] (by simp) (by simp) out h

/-- Witness for C2: the one-record service produces one item within the
caps, and its single backend query was issued with the per-table limit 10
while the total was 0. -/
theorem search_respects_caps_witness :
    handleSearch svcW cfgW "Bob" = .ok ([itemW], [queryW]) ∧
    ([itemW].length ≤ cfgW.maxTotal ∧
      ∀ qr ∈ [queryW], qr.limit = cfgW.perTableLimit ∧ qr.countBefore < cfgW.maxTotal) :=
  ⟨rfl, search_respects_caps svcW cfgW "Bob" ([itemW], [queryW]) rfl⟩

theorem searchTables_congr (svc svc2 : AirtableService) (cfg : SearchConfig) (q : String)
    (base : BaseInfo)
    (hQ : ∀ bi ti qq l, svc2.searchRecords bi ti qq l = svc.searchRecords bi ti qq l ∨
      ∃ e, svc.searchRecords bi ti qq l = .error e ∧ svc2.searchRecords bi ti qq l = .ok [])
    (tables : List TableDef) :
    ∀ (acc : List SearchResultItem) (trace : List SearchQuery),
    searchTables svc cfg q base tables acc trace =
      searchTables svc2 cfg q base tables acc trace := by
  induction tables with
  | nil => intro acc trace; rfl
  | cons t rest ih =>
    intro acc trace
    simp only [searchTables]
    split
    · rfl
    · rcases hQ base.id t.id q cfg.perTableLimit with he | ⟨e, he1, he2⟩
      · rw [he]
        cases hs : svc.searchRecords base.id t.id q cfg.perTableLimit with
        | error e => exact ih _ _
        | ok records => exact ih _ _
      · rw [he1, he2]
        exact ih _ _

theorem searchBases_congr (svc svc2 : AirtableService) (cfg : SearchConfig) (q : String)
    (hS : svc2.getBaseSchema = svc.getBaseSchema)
    (hQ : ∀ bi ti qq l, svc2.searchRecords bi ti qq l = svc.searchRecords bi ti qq l ∨
      ∃ e, svc.searchRecords bi ti qq l = .error e ∧ svc2.searchRecords bi ti qq l = .ok [])
    (bases : List BaseInfo) :
    ∀ (acc : List SearchResultItem) (trace : List SearchQuery),
    searchBases svc cfg q bases acc trace = searchBases svc2 cfg q bases acc trace := by
  induction bases with
  | nil => intro acc trace; rfl
  | cons b rest ih =>
    intro acc trace
    by_cases hskip : cfg.allowBaseIds ≠ [] ∧ cfg.allowBaseIds.contains b.id = false
    · simp only [searchBases, hS, if_pos hskip]
      exact ih _ _
    · cases hsch : svc.getBaseSchema b.id with
      | error e => simp only [searchBases, hS, if_neg hskip, hsch]
      | ok schema =>
        simp only [searchBases, hS, if_neg hskip, hsch]
        rw [searchTables_congr svc svc2 cfg q b hQ schema.tables acc trace]
        by_cases hcap :
            (searchTables svc2 cfg q b schema.tables acc trace).1.length ≥ cfg.maxTotal
        · rw [if_pos hcap, if_pos hcap]
        · rw [if_neg hcap, if_neg hcap]
          exact ih _ _

theorem searchBases_all_ok (svc : AirtableService) (cfg : SearchConfig) (q : String)
    (hOk : ∀ bid, ∃ sch, svc.getBaseSchema bid = .ok sch)
    (bases : List BaseInfo) :
    ∀ (acc : List SearchResultItem) (trace : List SearchQuery),
    ∃ out, searchBases svc cfg q bases acc trace = .ok out := by
  induction bases with
  | nil => intro acc trace; exact ⟨(acc, trace), rfl⟩
  | cons b rest ih =>
    intro acc trace
    by_cases hskip : cfg.allowBaseIds ≠ [] ∧ cfg.allowBaseIds.contains b.id = false
    · simp only [searchBases, if_pos hskip]
      exact ih _ _
    · obtain ⟨sch, hsch⟩ := hOk b.id
      simp only [searchBases, if_neg hskip, hsch]
      by_cases hcap : (searchTables svc cfg q b sch.tables acc trace).1.length ≥ cfg.maxTotal
      · rw [if_pos hcap]
        exact ⟨_, rfl⟩
      · rw [if_neg hcap]
        exact ih _ _

/-- C4: a table whose backend search throws is indistinguishable from a
table whose search returns no records — the failure is swallowed, the
failing table contributes zero results, and (when base listing and the
schema fetches succeed) the overall search completes without error, so the
dispatcher answers an isError false envelope carrying the other tables'
results. -/
theorem search_swallows_table_failures (svc svc2 : AirtableService)
    (cfg : SearchConfig) (q : String)
    (hB : svc2.listBases = svc.listBases)
    (hS : svc2.getBaseSchema = svc.getBaseSchema)
    (hQ : ∀ bi ti qq l, svc2.searchRecords bi ti qq l = svc.searchRecords bi ti qq l ∨
      ∃ e, svc.searchRecords bi ti qq l = .error e ∧ svc2.searchRecords bi ti qq l = .ok [])
    (hOk : ∀ bid, ∃ sch, svc.getBaseSchema bid = .ok sch)
    (hLB : ∃ bs, svc.listBases = .ok bs) :
    handleSearch svc cfg q = handleSearch svc2 cfg q ∧
    (∃ out, handleSearch svc cfg q = .ok out) ∧
    (handleCallTool svc cfg "search" (.vObj [("query", .vStr q)])).isError = false := by
  obtain ⟨bs, hbs⟩ := hLB
  have hrun : ∃ out, handleSearch svc cfg q = .ok out := by
    simp only [handleSearch, hbs]
    by_cases hemp : bs.isEmpty = true
    · rw [if_pos hemp]
      exact ⟨_, rfl⟩
    · rw [if_neg hemp]
      exact searchBases_all_ok svc cfg q hOk bs [] []
  refine ⟨?_, hrun, ?_⟩
  · simp only [handleSearch, hB, hbs]
    by_cases hemp : bs.isEmpty = true
    · rw [if_pos hemp, if_pos hemp]
    · rw [if_neg hemp, if_neg hemp]
      exact searchBases_congr svc svc2 cfg q hS hQ bs [] []
  · obtain ⟨out, hout⟩ := hrun
    have hparse : parseStringArg (.vObj [("query", .vStr q)]) "query" = .ok q := rfl
    simp [handleCallTool, callToolExcept, hparse, hout, formatToolResponse]

/-- Witness for C4: the concrete scenario of the spec — base B1 with table
T1 throwing and table T2 returning two records yields exactly those two
results and no surfaced error. -/
theorem search_swallows_table_failures_witness :
    handleSearch svcC4a cfgW "x" = handleSearch svcC4b cfgW "x" ∧
    (handleSearch svcC4a cfgW "x").map (fun rt => rt.1.length) = .ok 2 ∧
    (handleCallTool svcC4a cfgW "search" (.vObj [("query", .vStr "x")])).isError = false := by
  have hQ : ∀ bi ti qq l, svcC4b.searchRecords bi ti qq l = svcC4a.searchRecords bi ti qq l ∨
      ∃ e, svcC4a.searchRecords bi ti qq l = .error e ∧
        svcC4b.searchRecords bi ti qq l = .ok [] := by
    intro bi ti qq l
    by_cases h1 : bi = "B1" ∧ ti = "T1"
    · exact .inr ⟨"table search failed",
        by simp [svcC4a, searchC4fail, h1],
        by simp [svcC4b, svcC4a, searchC4empty, h1]⟩
    · left
      simp only [svcC4a, svcC4b, searchC4fail, searchC4empty]
      rw [if_neg h1, if_neg h1]
  have h := search_swallows_table_failures svcC4a svcC4b cfgW "x" rfl rfl hQ
    (fun _ => ⟨⟨[tabC4T1, tabC4T2]⟩, rfl⟩) ⟨[⟨"B1", "BaseOne"⟩], rfl⟩
  exact ⟨h.1, by rfl, h.2.2⟩

/-- C9: a failing base schema fetch is not swallowed — it aborts the whole
search at that base, discarding anything already gathered, and the
dispatcher surfaces it as an isError envelope carrying the message; only
per-table search failures are skipped. -/
theorem search_schema_failure_aborts (svc : AirtableService) (cfg : SearchConfig)
    (q : String) (b : BaseInfo) (rest : List BaseInfo)
    (acc : List SearchResultItem) (trace : List SearchQuery) (e : String)
    (hAllow : ¬ (cfg.allowBaseIds ≠ [] ∧ cfg.allowBaseIds.contains b.id = false))
    (hErr : svc.getBaseSchema b.id = .error e) :
    searchBases svc cfg q (b :: rest) acc trace = .error e ∧
    ∀ e2, handleSearch svc cfg q = .error e2 →
      handleCallTool svc cfg "search" (.vObj [("query", .vStr q)]) =
        formatToolResponse (.vStr ("Error in tool search: " ++ e2)) true := by
  constructor
  · simp only [searchBases]
    rw [if_neg hAllow, hErr]
  · intro e2 h2
    have hparse : parseStringArg (.vObj [("query", .vStr q)]) "query" = .ok q := rfl
    simp [handleCallTool, callToolExcept, hparse, h2]

/-- Witness for C9: svcC9's second base fails its schema fetch, aborting
the search even though the first base already produced a result, and the
dispatcher surfaces the error envelope. -/
theorem search_schema_failure_aborts_witness :
    searchBases svcC9 cfgW "Bob" [baseC9b] [itemW] [queryW] = .error "schema fetch failed" ∧
    handleCallTool svcC9 cfgW "search" (.vObj [("query", .vStr "Bob")]) =
      formatToolResponse (.vStr ("Error in tool search: " ++ "schema fetch failed")) true :=
  ⟨(search_schema_failure_aborts svcC9 cfgW "Bob" baseC9b [] [itemW] [queryW]
      "schema fetch failed" (by simp [cfgW]) rfl).1,
   (search_schema_failure_aborts svcC9 cfgW "Bob" baseC9b [] [itemW] [queryW]
      "schema fetch failed" (by simp [cfgW]) rfl).2 "schema fetch failed" rfl⟩

theorem fillFields_extends (entries : List (String × Value)) :
    ∀ (seen ordered : List String),
    ∃ extra, fillFields entries seen ordered = ordered ++ extra := by
  induction entries with
  | nil => intro seen ordered; exact ⟨[], by simp [fillFields]⟩
  | cons nv rest ih =>
    intro seen ordered
    obtain ⟨n, v⟩ := nv
    by_cases hseen : seen.contains n = true
    · simp only [fillFields, if_pos hseen]
      exact ih _ _
    · by_cases hs : (jsStringify v != "") = true
      · by_cases hcap : (ordered ++ [n]).length ≥ 8
        · exact ⟨[n], by simp only [fillFields, if_neg hseen, if_pos hs, if_pos hcap]⟩
        · obtain ⟨extra, hextra⟩ := ih (seen ++ [n]) (ordered ++ [n])
          refine ⟨[n] ++ extra, ?_⟩
          simp only [fillFields, if_neg hseen, if_pos hs, if_neg hcap, hextra,
            List.append_assoc]
      · by_cases hcap : ordered.length ≥ 8
        · exact ⟨[], by simp only [fillFields, if_neg hseen, if_neg hs, if_pos hcap,
            List.append_nil]⟩
        · obtain ⟨extra, hextra⟩ := ih seen ordered
          exact ⟨extra, by simp only [fillFields, if_neg hseen, if_neg hs, if_neg hcap,
            hextra]⟩

theorem fillFields_length_le (entries : List (String × Value)) :
    ∀ (seen ordered : List String),
    (fillFields entries seen ordered).length ≤ max (ordered.length + 1) 8 := by
  induction entries with
  | nil =>
    intro seen ordered
    simp only [fillFields]
    exact le_max_of_le_left (Nat.le_succ _)
  | cons nv rest ih =>
    intro seen ordered
    obtain ⟨n, v⟩ := nv
    by_cases hseen : seen.contains n = true
    · simp only [fillFields, if_pos hseen]
      exact ih _ _
    · by_cases hs : (jsStringify v != "") = true
      · by_cases hcap : (ordered ++ [n]).length ≥ 8
        · simp only [fillFields, if_neg hseen, if_pos hs, if_pos hcap]
          have hlen : (ordered ++ [n]).length = ordered.length + 1 := by simp
          rw [hlen]
          exact le_max_left _ _
        · simp only [fillFields, if_neg hseen, if_pos hs, if_neg hcap]
          refine le_trans (ih (seen ++ [n]) (ordered ++ [n])) ?_
          have h8 : (ordered ++ [n]).length + 1 ≤ 8 := by
            simp only [List.length_append, List.length_singleton] at hcap ⊢
            omega
          rw [Nat.max_eq_right h8]
          exact le_max_right _ _
      · by_cases hcap : ordered.length ≥ 8
        · simp only [fillFields, if_neg hseen, if_neg hs, if_pos hcap]
          exact le_max_of_le_left (Nat.le_succ _)
        · simp only [fillFields, if_neg hseen, if_neg hs, if_neg hcap]
          exact ih _ _

/-- C5 counterexample: a record carrying all nine names of the fixed
priority list gets nine fields selected for its snippet, refuting the
claim that at most 8 fields are ever selected — the prioritized pass has
no cap; only the fill pass stops at 8. -/
theorem snippet_selection_counterexample :
    (orderedFieldNames none c5Fields).length = 9 ∧
    ¬ (orderedFieldNames none c5Fields).length ≤ 8 := by
  constructor
  · decide
  · decide

/-- C5 (amended): the snippet's selected fields are the prioritized
fields present on the record (the primary field first, then the fixed
list, all of them without a cap), followed by remaining fields whose
values stringify non-empty only until the selection reaches 8; hence the
selection is bounded by 8 whenever fewer than 8 prioritized fields are
present, and in general by one more than the prioritized count when that
count is 8 or more. -/
theorem snippet_field_selection (pf : Option String) (rfields : List (String × Value)) :
    (∃ extra, orderedFieldNames pf rfields =
      (addPrioritized rfields (prioritizedFieldNames pf) [] []).2 ++ extra) ∧
    (orderedFieldNames pf rfields).length ≤
      max ((addPrioritized rfields (prioritizedFieldNames pf) [] []).2.length + 1) 8 ∧
    ((addPrioritized rfields (prioritizedFieldNames pf) [] []).2.length < 8 →
      (orderedFieldNames pf rfields).length ≤ 8) := by
  refine ⟨fillFields_extends _ _ _, fillFields_length_le _ _ _, ?_⟩
  intro h
  have hb := fillFields_length_le rfields
    (addPrioritized rfields (prioritizedFieldNames pf) [] []).1
    (addPrioritized rfields (prioritizedFieldNames pf) [] []).2
  rw [Nat.max_eq_right (by omega)] at hb
  exact hb

/-- Witness for C5's amended bound: a record with a single ordinary
field has fewer than 8 prioritized fields and ends up with at most 8
selected. -/
theorem snippet_field_selection_witness :
    (addPrioritized [("a", Value.vStr "x")]
      (prioritizedFieldNames none) [] []).2.length < 8 ∧
    (orderedFieldNames none [("a", Value.vStr "x")]).length ≤ 8 :=
  ⟨by decide, (snippet_field_selection none [("a", Value.vStr "x")]).2.2 (by decide)⟩

theorem takeChars_length_le (n : Nat) (s : String) : (takeChars n s).length ≤ n := by
  have h : (takeChars n s).length = (s.data.take n).length := rfl
  rw [h, List.length_take]
  exact Nat.min_le_left _ _

theorem takeChars_ne_empty (s : String) (hs : s ≠ "") : takeChars 400 s ≠ "" := by
  rcases s with ⟨l⟩
  cases l with
  | nil => exact absurd rfl hs
  | cons c cs =>
    intro h
    have h2 : (c :: cs).take 400 = [] := congrArg String.data h
    simp at h2

theorem jsonStr_obj_ne_empty (kvs : List (String × Value)) : jsonStr (.vObj kvs) ≠ "" := by
  intro h
  have h2 : ("\x7b" ++ jsonObj kvs ++ "\x7d").data = [] := congrArg String.data h
  have hb : ("\x7b" : String).data = ['\x7b'] := rfl
  rw [string_data_append, string_data_append, hb] at h2
  simp at h2

/-- C6: for every record (in particular one with at least one non-empty
stringified field value), the generated snippet — the joined pairs or the
raw JSON fallback — is non-empty and at most 400 characters long. -/
theorem snippet_nonempty_and_bounded (pf : Option String)
    (rfields : List (String × Value))
    (h : ∃ p ∈ rfields, jsStringify p.2 ≠ "") :
    buildSnippet pf rfields ≠ "" ∧ (buildSnippet pf rfields).length ≤ 400 := by
  constructor
  · unfold buildSnippet
    apply takeChars_ne_empty
    by_cases hj : snippetJoined pf rfields = ""
    · rw [if_pos hj]
      exact jsonStr_obj_ne_empty rfields
    · rw [if_neg hj]
      exact hj
  · exact takeChars_length_le 400 _

/-- Witness for C6 at a one-field record. -/
theorem snippet_nonempty_and_bounded_witness :
    (∃ p ∈ [(("a" : String), Value.vStr "hello")], jsStringify p.2 ≠ "") ∧
    (buildSnippet none [("a", Value.vStr "hello")] ≠ "" ∧
      (buildSnippet none [("a", Value.vStr "hello")]).length ≤ 400) :=
  ⟨⟨("a", Value.vStr "hello"), List.mem_singleton.mpr rfl, by decide⟩,
   snippet_nonempty_and_bounded none [("a", Value.vStr "hello")]
     ⟨("a", Value.vStr "hello"), List.mem_singleton.mpr rfl, by decide⟩⟩

/-- C7 counterexample: requesting the numeric field Amount makes the call
fail with the invalid-fields message — but the claim that no backend call
is made is false: the validation itself fetches the base schema from the
backend, so the call trace is not empty. -/
theorem search_records_invalid_fields_counterexample :
    (serviceSearchRecords apiC7 "b1" "t1" "foo" (some ["Amount"]) none none).1 =
      .error "Invalid fields requested: Amount" ∧
    (serviceSearchRecords apiC7 "b1" "t1" "foo" (some ["Amount"]) none none).2 ≠ [] := by
  constructor
  · rfl
  · decide

/-- C7 (amended): a search_records call that requests a field which is
not a text-like field of the table fails with an error naming the invalid
fields, and no record-listing backend call is made — the only backend
call in the trace is the schema fetch performed for the validation. -/
theorem search_records_invalid_fields (api : ApiBackend)
    (baseId tableId term : String) (req : List String)
    (maxRec : Option Nat) (view : Option String)
    (schema : BaseSchema) (table : TableDef)
    (hS : api.baseSchemas baseId = .ok schema)
    (hT : schema.tables.find? (fun t => t.id == tableId) = some table)
    (hSearchable : (searchableNames table).isEmpty = false)
    (hReq : req.length > 0)
    (hInv : (req.filter (fun n => !(searchableNames table).contains n)).isEmpty = false) :
    (serviceSearchRecords api baseId tableId term (some req) maxRec view).1 =
      .error ("Invalid fields requested: " ++ String.intercalate ", "
        (req.filter (fun n => !(searchableNames table).contains n))) ∧
    (serviceSearchRecords api baseId tableId term (some req) maxRec view).2 =
      [ApiCall.schemaCall baseId] := by
  have hval : validateAndGetSearchFields api baseId tableId (some req) =
      .error ("Invalid fields requested: " ++ String.intercalate ", "
        (req.filter (fun n => !(searchableNames table).contains n))) := by
    simp only [validateAndGetSearchFields, hS, hT]
    rw [if_neg (by rw [hSearchable]; exact Bool.false_ne_true), if_pos hReq,
      if_neg (by rw [hInv]; exact Bool.false_ne_true)]
  constructor
  · simp only [serviceSearchRecords, hval]
  · simp only [serviceSearchRecords, hval]

/-- Witness for C7's amended statement at the concrete numeric-field
request. -/
theorem search_records_invalid_fields_witness :
    (serviceSearchRecords apiC7 "b1" "t1" "foo" (some ["Amount"]) none none).1 =
      .error ("Invalid fields requested: " ++ String.intercalate ", "
        (["Amount"].filter (fun n => !(searchableNames tabC7).contains n))) ∧
    (serviceSearchRecords apiC7 "b1" "t1" "foo" (some ["Amount"]) none none).2 =
      [ApiCall.schemaCall "b1"] :=
  search_records_invalid_fields apiC7 "b1" "t1" "foo" ["Amount"] none none
    ⟨[tabC7]⟩ tabC7 rfl rfl (by decide) (by decide) (by decide)

end AirtableMcp
